import Mathlib

/-!
Shallow embedding of the session-aggregation / incremental-cache report
generator (`9716.py`) and proofs about its behaviour.

Spreadsheet cells, JSON fields and Python dict values are modelled by the
`Value` type below; Python dicts keyed by strings become association lists
with insert-overwrite semantics; the parts of the program that touch the
database or the filesystem take the queried data as explicit arguments.
-/

namespace CollectionReport

/-- A Python scalar value as it appears in spreadsheet cells, JSON stat
documents and row dictionaries: `none` is Python `None`. -/
inductive Value where
  | none
  | bool (b : Bool)
  | int (n : ℤ)
  | float (q : ℚ)
  | str (s : String)
deriving DecidableEq, Repr

/-- Python truthiness of a `Value` (`bool(v)`). -/
def Value.truthy : Value → Bool
  | .none => false
  | .bool b => b
  | .int n => n != 0
  | .float q => q != 0
  | .str s => s != ""

/-- Numeric view of a `Value`: Python treats `bool` as a subclass of `int`,
and `int`/`float` compare numerically. -/
def Value.toNum : Value → Option ℚ
  | .bool b => some (if b then 1 else 0)
  | .int n => some (n : ℚ)
  | .float q => some q
  | _ => Option.none

/-- Python `==` on scalar values: numeric kinds compare by value, strings
by content, `None` only equals `None`, everything else is unequal. -/
def pyEq (a b : Value) : Bool :=
  match a.toNum, b.toNum with
  | some x, some y => x == y
  | _, _ =>
    match a, b with
    | .str s, .str t => s == t
    | .none, .none => true
    | _, _ => false

/-- A Python dict with string keys (e.g. a session row), as an ordered
association list. -/
abbrev Row := List (String × Value)

/-- `d.get(k)` with default `None`. -/
def dget (d : Row) (k : String) : Value :=
  match d with
  | [] => Value.none
  | p :: rest => if p.1 == k then p.2 else dget rest k

/-- `k in d` for a string-keyed dict. -/
def dmem (d : Row) (k : String) : Bool :=
  d.any (fun p => p.1 == k)

/-- `d[k] = v`: overwrite the first entry with this key in place (a dict
never holds duplicate keys), else append at the end, as a Python dict
assignment does. -/
def dinsert (d : Row) (k : String) (v : Value) : Row :=
  match d with
  | [] => [(k, v)]
  | p :: rest => if p.1 == k then (k, v) :: rest else p :: dinsert rest k v

/-- A Python dict whose keys are themselves cell values, as built for the
"Stats" sheet rows (`{head: cell.value for head, cell in zip(ws_heads, row)}`
where `ws_heads` holds whatever the stats header row contains). -/
abbrev VRow := List (Value × Value)

/-- Build a `VRow` from zipped header/value lists: `zip` truncates at the
shorter list and a repeated key keeps the last value, as in a Python dict
comprehension. -/
def vzipDict (hs : List Value) (vals : List Value) : VRow :=
  (hs.zip vals).foldl
    (fun d p =>
      if d.any (fun q => pyEq q.1 p.1) then
        d.map (fun q => if pyEq q.1 p.1 then (p.1, p.2) else q)
      else d ++ [p])
    []

/-- `d.get(k, None)` on a value-keyed dict. -/
def vget (d : VRow) (k : Value) : Value :=
  match d.find? (fun p => pyEq p.1 k) with
  | some p => p.2
  | Option.none => Value.none

/-- `d[k]` on a value-keyed dict: `KeyError` (modelled as `Option.none`)
when the key is absent. -/
def vgetStrict (d : VRow) (k : Value) : Option Value :=
  (d.find? (fun p => pyEq p.1 k)).map (fun p => p.2)

/-- One cached session as built by `try_get_cached_sessions`: the prior
"Sessions" row (keyed by the expected session headers) and the prior
"Stats" exception rows belonging to that session. -/
structure CacheEntry where
  session : Row
  stats : List VRow
deriving DecidableEq, Repr

/-- The cache-reconciliation branch at the top of `get_rows`
(`9716.py` lines 346-374).  Takes the cache entry found under
`session.name` (if any), the live session's `completed`/`abandoned` flags,
the live `File.query...count()` item count and the two header lists, and
returns the `cache_hit` flag together with the `session_row` and
`stat_rows` produced on a hit (on a miss both stay at their initial empty
values and the recompute path takes over). -/
def getRowsCacheStep (cacheEntry : Option CacheEntry)
    (liveCompleted liveAbandoned : Bool) (liveTotalItems : ℤ)
    (sessionHeaders statHeaders : List String) :
    Bool × Row × List Row :=
  match cacheEntry with
  | Option.none => (false, [], [])
  | some e =>
    if (dget e.session "Completed").truthy
        || (dget e.session "Abandoned").truthy
        || pyEq (dget e.session "Total items") (Value.int liveTotalItems) then
      if (!(dget e.session "Completed").truthy
            && !(dget e.session "Abandoned").truthy)
          && (liveCompleted || liveAbandoned) then
        (false, [], [])
      else
        (true,
         sessionHeaders.map (fun h => (h, dget e.session h)),
         e.stats.map (fun st => statHeaders.map (fun h => (h, vget st (Value.str h)))))
    else
      (false, [], [])

/-- Claim C1: `get_rows` reuses the cached rows (cache hit) iff a cache
entry for the session exists, and (cached `Completed` truthy, or cached
`Abandoned` truthy, or the cached `Total items` equals the live item
count), and not (both cached flags falsy while the live session reports
completed or abandoned); moreover on a hit the returned rows are the
cached rows remapped onto the current header lists. -/
theorem cache_reconciliation_decision (cacheEntry : Option CacheEntry)
    (liveCompleted liveAbandoned : Bool) (liveTotalItems : ℤ)
    (sessionHeaders statHeaders : List String) :
    ((getRowsCacheStep cacheEntry liveCompleted liveAbandoned liveTotalItems
        sessionHeaders statHeaders).1 = true ↔
      ∃ e, cacheEntry = some e ∧
        ((dget e.session "Completed").truthy = true ∨
         (dget e.session "Abandoned").truthy = true ∨
         pyEq (dget e.session "Total items") (Value.int liveTotalItems) = true) ∧
        ¬(((dget e.session "Completed").truthy = false ∧
           (dget e.session "Abandoned").truthy = false) ∧
          (liveCompleted = true ∨ liveAbandoned = true))) ∧
    (∀ e, cacheEntry = some e →
      (getRowsCacheStep cacheEntry liveCompleted liveAbandoned liveTotalItems
          sessionHeaders statHeaders).1 = true →
      (getRowsCacheStep cacheEntry liveCompleted liveAbandoned liveTotalItems
          sessionHeaders statHeaders).2 =
        (sessionHeaders.map (fun h => (h, dget e.session h)),
         e.stats.map (fun st => statHeaders.map (fun h => (h, vget st (Value.str h)))))) := by
  constructor
  · cases cacheEntry with
    | none => simp [getRowsCacheStep]
    | some e =>
      simp only [getRowsCacheStep]
      by_cases h1 : ((dget e.session "Completed").truthy
          || (dget e.session "Abandoned").truthy
          || pyEq (dget e.session "Total items") (Value.int liveTotalItems)) = true
      · rw [if_pos h1]
        by_cases h2 : ((!(dget e.session "Completed").truthy
              && !(dget e.session "Abandoned").truthy)
            && (liveCompleted || liveAbandoned)) = true
        · rw [if_pos h2]
          simp only [Bool.and_eq_true, Bool.or_eq_true, Bool.not_eq_true'] at h1 h2
          constructor
          · intro habs; exact absurd habs (by simp)
          · rintro ⟨e', he', _, hno⟩
            cases Option.some.injEq .. ▸ he' with
            | refl => exact absurd ⟨⟨h2.1.1, h2.1.2⟩, h2.2⟩ hno
        · rw [if_neg h2]
          simp only [Bool.and_eq_true, Bool.or_eq_true, Bool.not_eq_true'] at h1 h2
          constructor
          · intro _
            refine ⟨e, rfl, by tauto, ?_⟩
            rintro ⟨⟨hc, ha⟩, hl⟩
            exact h2 ⟨⟨hc, ha⟩, hl⟩
          · intro _; rfl
      · rw [if_neg h1]
        simp only [Bool.or_eq_true] at h1
        constructor
        · intro habs; exact absurd habs (by simp)
        · rintro ⟨e', he', hcond, _⟩
          cases Option.some.injEq .. ▸ he' with
          | refl => exact absurd hcond (by tauto)
  · intro e he
    subst he
    simp only [getRowsCacheStep]
    by_cases h1 : ((dget e.session "Completed").truthy
        || (dget e.session "Abandoned").truthy
        || pyEq (dget e.session "Total items") (Value.int liveTotalItems)) = true
    · rw [if_pos h1]
      by_cases h2 : ((!(dget e.session "Completed").truthy
            && !(dget e.session "Abandoned").truthy)
          && (liveCompleted || liveAbandoned)) = true
      · rw [if_pos h2]; intro habs; exact absurd habs (by simp)
      · rw [if_neg h2]; intro _; rfl
    · rw [if_neg h1]; intro habs; exact absurd habs (by simp)

/-- The prior report workbook as seen by `try_get_cached_sessions`: the
rows of the active (first) sheet and of the "Stats" sheet, each cell a
`Value`.  A missing "Stats" sheet is not modelled: the file being read was
written by this program, which always creates both sheets. -/
structure Workbook where
  sessionRows : List (List Value)
  statRows : List (List Value)
deriving Repr

/-- What `try_get_cached_sessions` produces: the session map plus flags
recording whether the header-mismatch warning was printed to stderr and
whether the old report was copied to the `.bak` sibling path. -/
structure CacheLoadResult where
  sessions : List (Value × CacheEntry)
  warned : Bool
  bakCopied : Bool
deriving Repr

/-- Python set equality `set(a) == set(b)` on cell values: mutual
membership under `==`. -/
def setEqValues (a b : List Value) : Bool :=
  a.all (fun x => b.any (fun y => pyEq x y)) &&
    b.all (fun x => a.any (fun y => pyEq x y))

/-- `{head: cell.value for head, cell in zip(session_headers, row)}`:
string-keyed zip dict, truncating at the shorter list, last value winning
on a repeated header. -/
def zipDict (hs : List String) (vals : List Value) : Row :=
  (hs.zip vals).foldl (fun d p => dinsert d p.1 p.2) []

/-- `sessions[key] = entry` on the value-keyed session map. -/
def ventrySet (d : List (Value × CacheEntry)) (k : Value) (v : CacheEntry) :
    List (Value × CacheEntry) :=
  if d.any (fun p => pyEq p.1 k) then
    d.map (fun p => if pyEq p.1 k then (k, v) else p)
  else d ++ [(k, v)]

/-- `sessions[key]["Stats"].append(row)`. -/
def appendStat (d : List (Value × CacheEntry)) (k : Value) (st : VRow) :
    List (Value × CacheEntry) :=
  d.map (fun p =>
    if pyEq p.1 k then (p.1, ⟨p.2.session, p.2.stats ++ [st]⟩) else p)

/-- The loop over the "Stats" sheet in `try_get_cached_sessions`
(`9716.py` lines 164-178): zip each data row against the sheet's own
header row, skip all-`None` rows, and append the row to the cache entry of
its "Session" key when that session is present; a data row whose dict
lacks the "Session" key raises an uncaught `KeyError` (`.error`). -/
def attachStats (wsHeads : List Value) (rows : List (List Value))
    (sessions : List (Value × CacheEntry)) :
    Except String (List (Value × CacheEntry)) :=
  match rows with
  | [] => .ok sessions
  | r :: rest =>
    let rowD := vzipDict wsHeads r
    if rowD.all (fun p => p.2 == Value.none) then
      attachStats wsHeads rest sessions
    else
      match vgetStrict rowD (Value.str "Session") with
      | Option.none => .error "KeyError"
      | some sessKey =>
        if sessions.any (fun p => pyEq p.1 sessKey) then
          attachStats wsHeads rest (appendStat sessions sessKey rowD)
        else
          attachStats wsHeads rest sessions

/-- `try_get_cached_sessions` (`9716.py` lines 121-180).  The `wb`
argument is `Option.none` when `load_workbook` raises `FileNotFoundError`.
The unused `statHeaders` parameter mirrors the Python signature, whose
`stat_headers` parameter is never read.  An empty first sheet has no
header row, so the row loop never runs and the empty map is returned. -/
def tryGetCachedSessions (wb : Option Workbook)
    (sessionHeaders _statHeaders : List String) :
    Except String CacheLoadResult :=
  match wb with
  | Option.none => .ok ⟨[], false, false⟩
  | some w =>
    match w.sessionRows with
    | [] => .ok ⟨[], false, false⟩
    | headerRow :: dataRows =>
      if setEqValues headerRow (sessionHeaders.map Value.str) then
        let sessions := dataRows.foldl
          (fun acc r =>
            let srow := zipDict sessionHeaders r
            if srow.all (fun p => p.2 == Value.none) then acc
            else ventrySet acc (dget srow "Directory Name") ⟨srow, []⟩)
          []
        if sessions.isEmpty then .ok ⟨sessions, false, false⟩
        else
          match w.statRows with
          | [] => .ok ⟨sessions, false, false⟩
          | statHeaderRow :: statData =>
            (attachStats statHeaderRow statData sessions).map
              (fun s => ⟨s, false, false⟩)
      else
        .ok ⟨[], true, true⟩

/-- Claim C2: `try_get_cached_sessions` returns an empty mapping on a
missing prior report (no warning, no backup), and when the first sheet's
header set differs from the expected session headers it warns, copies the
file to the `.bak` sibling, and returns an empty mapping without building
any cache entry. -/
theorem cache_loader_failsafe (sessionHeaders statHeaders : List String) :
    tryGetCachedSessions Option.none sessionHeaders statHeaders =
      .ok ⟨[], false, false⟩ ∧
    (∀ (w : Workbook) (headerRow : List Value) (dataRows : List (List Value)),
      w.sessionRows = headerRow :: dataRows →
      setEqValues headerRow (sessionHeaders.map Value.str) = false →
      tryGetCachedSessions (some w) sessionHeaders statHeaders =
        .ok ⟨[], true, true⟩) := by
  constructor
  · rfl
  · intro w headerRow dataRows hrows hne
    simp [tryGetCachedSessions, hrows, hne]

/-- Witness for `cache_loader_failsafe`: a cold start returns the empty
map, and a one-column prior sheet whose only header is "Other" is backed
up and discarded. -/
theorem cache_loader_failsafe_witness :
    tryGetCachedSessions Option.none ["Directory Name"] [] =
      .ok ⟨[], false, false⟩ ∧
    tryGetCachedSessions (some ⟨[[Value.str "Other"]], []⟩)
        ["Directory Name"] [] = .ok ⟨[], true, true⟩ :=
  ⟨(cache_loader_failsafe ["Directory Name"] []).1,
   (cache_loader_failsafe ["Directory Name"] []).2
     ⟨[[Value.str "Other"]], []⟩ [Value.str "Other"] [] rfl (by decide)⟩

/-- Witness for `cache_reconciliation_decision`: a session cached as
`Completed` is a hit and its cached row is reused. -/
theorem cache_reconciliation_decision_witness :
    (getRowsCacheStep (some ⟨[("Completed", Value.bool true)], []⟩)
        false false 0 ["Completed"] []).2 =
      ([("Completed", Value.bool true)], ([] : List Row)) :=
  ((cache_reconciliation_decision (some ⟨[("Completed", Value.bool true)], []⟩)
      false false 0 ["Completed"] []).2
    ⟨[("Completed", Value.bool true)], []⟩ rfl (by decide)).trans (by decide)

/-! ## Prompt-attribute extraction (C3) -/

/-- Reading a key after a dict assignment: the assigned key reads back the
new value, every other key is unaffected. -/
theorem dget_dinsert (r : Row) (k k' : String) (v : Value) :
    dget (dinsert r k v) k' = if k' = k then v else dget r k' := by
  induction r with
  | nil =>
    by_cases h : k' = k
    · simp [dinsert, dget, h]
    · have h2 : ¬(k = k') := fun e => h e.symm
      simp [dinsert, dget, h, h2]
  | cons p rest ih =>
    by_cases hp : p.1 = k
    · by_cases h : k' = k
      · simp [dinsert, dget, hp, h]
      · have h2 : ¬(k = k') := fun e => h e.symm
        have h3 : ¬(p.1 = k') := fun e => h (e.symm.trans hp)
        simp [dinsert, dget, hp, h, h2, h3]
    · by_cases h : k' = k
      · have h3 : ¬(p.1 = k') := fun e => hp (e.trans h)
        subst h
        simp [dinsert, dget, hp, h3, ih]
      · simp [dinsert, dget, hp, h, ih]

/-- Keys not named by the fold are unaffected by it. -/
theorem dget_fold_notmem (attrs row : Row) (keys : List String) (k : String)
    (hk : k ∉ keys) :
    dget (keys.foldl (fun r k' => dinsert r k' (dget attrs k')) row) k =
      dget row k := by
  induction keys generalizing row with
  | nil => rfl
  | cons k0 rest ih =>
    have hk0 : k ≠ k0 := fun h => hk (h ▸ List.mem_cons_self k0 rest)
    have hrest : k ∉ rest := fun h => hk (List.mem_cons_of_mem k0 h)
    simp only [List.foldl_cons]
    rw [ih _ hrest, dget_dinsert, if_neg hk0]

/-- After folding every requested key into the row from `attrs`, each
requested key reads back exactly `attrs.get(key)`. -/
theorem dget_fold_mem (attrs row : Row) (keys : List String) (k : String)
    (hk : k ∈ keys) :
    dget (keys.foldl (fun r k' => dinsert r k' (dget attrs k')) row) k =
      dget attrs k := by
  induction keys generalizing row with
  | nil => cases hk
  | cons k0 rest ih =>
    simp only [List.foldl_cons]
    by_cases hmem : k ∈ rest
    · exact ih _ hmem
    · have hk0 : k = k0 := by
        rcases List.mem_cons.mp hk with h | h
        · exact h
        · exact absurd h hmem
      rw [dget_fold_notmem attrs _ rest k hmem, dget_dinsert, if_pos hk0]
      subst hk0
      rfl

/-- The prompt-attribute loop of `get_rows` (`9716.py` lines 434-443):
walk the session's prompts in order; a prompt with a `None` attributes map
is skipped; otherwise every configured key is assigned
`attributes.get(key)` into the row (overwriting whatever was there), and
the loop breaks once all configured keys read back truthy. -/
def promptAttrScan (keys : List String) (prompts : List (Option Row))
    (row : Row) : Row :=
  match prompts with
  | [] => row
  | Option.none :: rest => promptAttrScan keys rest row
  | some attrs :: rest =>
    let row' := keys.foldl (fun r k => dinsert r k (dget attrs k)) row
    if keys.all (fun k => (dget row' k).truthy) then row'
    else promptAttrScan keys rest row'

/-- The attributes map whose values the loop leaves in the row: the first
non-`None` attributes map in which every configured key is truthy, else
the last non-`None` attributes map, else nothing (row untouched). -/
def lastScanned (keys : List String) (prompts : List (Option Row)) :
    Option Row :=
  match prompts with
  | [] => Option.none
  | Option.none :: rest => lastScanned keys rest
  | some attrs :: rest =>
    if keys.all (fun k => (dget attrs k).truthy) then some attrs
    else
      match lastScanned keys rest with
      | some a => some a
      | Option.none => some attrs

/-- Claim C3 (counterexample): with configured keys `a, b` and prompts
`[{a: "x"}, {b: "y"}]`, the first prompt containing key `a` carries value
`"x"`, yet the stored value for `a` is not `"x"` — the second prompt
overwrote it with its own (missing) `a` attribute, refuting
first-match-wins. -/
theorem prompt_attributes_counterexample :
    dget (promptAttrScan ["a", "b"]
        [some [("a", Value.str "x")], some [("b", Value.str "y")]] []) "a" ≠
      Value.str "x" := by decide

/-- Claim C3 (amended): the scan is last-writer-wins, not
first-match-wins.  For every configured key the stored value is
`attributes.get(key)` of the last scanned prompt — the first prompt with a
non-null attributes map in which every requested key is truthy when one
exists, otherwise the last prompt with a non-null attributes map — and
when no prompt has a non-null attributes map the row is unchanged. -/
theorem prompt_attributes_last_writer (keys : List String)
    (prompts : List (Option Row)) (row : Row) :
    (lastScanned keys prompts = Option.none →
      promptAttrScan keys prompts row = row) ∧
    (∀ attrs, lastScanned keys prompts = some attrs →
      ∀ k ∈ keys, dget (promptAttrScan keys prompts row) k = dget attrs k) := by
  induction prompts generalizing row with
  | nil => simp [lastScanned, promptAttrScan]
  | cons p rest ih =>
    cases p with
    | none => simpa only [lastScanned, promptAttrScan] using ih row
    | some attrs =>
      have hcond : (keys.all (fun k =>
            (dget (keys.foldl (fun r k' => dinsert r k' (dget attrs k')) row)
              k).truthy)) =
          keys.all (fun k => (dget attrs k).truthy) := by
        rw [Bool.eq_iff_iff, List.all_eq_true, List.all_eq_true]
        constructor <;> intro hh k hk
        · rw [← dget_fold_mem attrs row keys k hk]; exact hh k hk
        · rw [dget_fold_mem attrs row keys k hk]; exact hh k hk
      by_cases hall : keys.all (fun k => (dget attrs k).truthy) = true
      · constructor
        · intro hnone
          simp [lastScanned, hall] at hnone
        · intro a ha k hk
          simp only [lastScanned, if_pos hall, Option.some.injEq] at ha
          subst ha
          simp only [promptAttrScan, hcond, if_pos hall]
          exact dget_fold_mem attrs row keys k hk
      · have hall' : keys.all (fun k => (dget attrs k).truthy) = false :=
          Bool.eq_false_iff.mpr hall
        constructor
        · intro hnone
          simp only [lastScanned, if_neg hall] at hnone
          cases hls : lastScanned keys rest with
          | none => rw [hls] at hnone; cases hnone
          | some a => rw [hls] at hnone; cases hnone
        · intro a ha k hk
          simp only [promptAttrScan, hcond, hall', if_neg hall]
          simp only [lastScanned, if_neg hall] at ha
          cases hls : lastScanned keys rest with
          | none =>
            rw [hls] at ha
            cases ha
            rw [(ih _).1 hls]
            exact dget_fold_mem attrs row keys k hk
          | some a2 =>
            rw [hls] at ha
            have ha2 : a2 = a := by injection ha
            subst ha2
            exact (ih _).2 a2 hls k hk

/-- Witness for `prompt_attributes_last_writer`: with one key `a` and one
prompt `{a: "x"}` the stored value is `"x"`. -/
theorem prompt_attributes_last_writer_witness :
    dget (promptAttrScan ["a"] [some [("a", Value.str "x")]] []) "a" =
      Value.str "x" :=
  (prompt_attributes_last_writer ["a"] [some [("a", Value.str "x")]] []).2
    [("a", Value.str "x")] (by decide) "a" (by decide)

/-! ## Duration (C4) -/

/-- One non-skipped item of a session, as seen by the duration fallback in
`get_rows` (`9716.py` lines 392-418): its `prompttype` attribute and the
nested `duration` field of its latest Stat document for that prompt type
(`Option.none` when the item has no Stat row at all; `some Value.none`
when the Stat exists but the field is JSON null). -/
structure ItemRec where
  promptType : String
  statNestedDuration : Option Value
deriving DecidableEq, Repr

/-- What one queried item adds to the summed duration: nothing when the
`one_or_none` query returned no row (`None[0]` raises `TypeError`,
suppressed), nothing when the fetched value is falsy
(`if file_duration:`), nothing when it is non-numeric (`/ 1000` raises
`TypeError`, suppressed), else the value scaled by `/ 1000`. -/
def durationContrib (d : Option Value) : ℚ :=
  match d with
  | Option.none => 0
  | some v =>
    if v.truthy then
      match v.toNum with
      | some q => q / 1000
      | Option.none => 0
    else 0

/-- The duration fallback loop: the query filters the session's files to
`prompttype == "video"` only, then accumulates `file_duration / 1000`. -/
def computedSessionDuration (items : List ItemRec) : ℚ :=
  (items.filter (fun it => it.promptType == "video")).foldl
    (fun acc it => acc + durationContrib it.statNestedDuration) 0

/-- `session_duration` as `get_rows` computes it: the session's recorded
duration verbatim when present, else the summed per-item fallback. -/
def sessionDurationValue (recorded : Option ℚ) (items : List ItemRec) : ℚ :=
  match recorded with
  | some d => d
  | Option.none => computedSessionDuration items

/-- The duration the claim describes, for comparison: a sum over the
session's video AND image items of each one's latest-Stat nested duration
divided by 1000 (missing values contributing nothing). -/
def claimedSessionDuration (recorded : Option ℚ) (items : List ItemRec) : ℚ :=
  match recorded with
  | some d => d
  | Option.none =>
    ((items.filter (fun it =>
        it.promptType == "video" || it.promptType == "image")).map
      (fun it => durationContrib it.statNestedDuration)).sum

/-- Claim C4 (counterexample): a session with no recorded duration and a
single image item whose latest Stat carries nested duration 2000 gets
Duration 0 from the code — the fallback query filters to video items only
— while the claim's video/image sum says 2. -/
theorem duration_counterexample :
    sessionDurationValue Option.none [⟨"image", some (Value.int 2000)⟩] = 0 ∧
    claimedSessionDuration Option.none [⟨"image", some (Value.int 2000)⟩] = 2 ∧
    (0 : ℚ) ≠ 2 := by
  refine ⟨rfl, ?_, by norm_num⟩
  show ([durationContrib (some (Value.int 2000))]).sum = 2
  show [(2000 : ℚ) / 1000].sum = 2
  norm_num

/-- Folding `+ f x` over a list starting at `a` is `a` plus the mapped
sum. -/
theorem foldl_add_eq_sum (f : ItemRec → ℚ) (l : List ItemRec) (a : ℚ) :
    l.foldl (fun acc it => acc + f it) a = a + (l.map f).sum := by
  induction l generalizing a with
  | nil => simp
  | cons x xs ih => simp [ih, add_assoc]

/-- Claim C4 (amended): the recorded duration is used verbatim when
present; otherwise Duration is the sum over the session's VIDEO items only
(image items are excluded by the fallback query's prompt-type filter) of
each item's latest-Stat nested duration divided by 1000, missing values
contributing nothing. -/
theorem duration_video_only_sum (recorded : Option ℚ) (items : List ItemRec) :
    (∀ d, recorded = some d → sessionDurationValue recorded items = d) ∧
    (recorded = Option.none →
      sessionDurationValue recorded items =
        ((items.filter (fun it => it.promptType == "video")).map
          (fun it => durationContrib it.statNestedDuration)).sum) := by
  constructor
  · intro d hd; subst hd; rfl
  · intro h; subst h
    show computedSessionDuration items = _
    unfold computedSessionDuration
    rw [foldl_add_eq_sum, zero_add]

/-- Witness for `duration_video_only_sum`: a recorded duration passes
through, and a lone video item with duration 3000 sums to 3. -/
theorem duration_video_only_sum_witness :
    sessionDurationValue (some 7) [⟨"video", some (Value.int 3000)⟩] = 7 ∧
    sessionDurationValue Option.none [⟨"video", some (Value.int 3000)⟩] = 3 := by
  constructor
  · exact (duration_video_only_sum (some 7)
      [⟨"video", some (Value.int 3000)⟩]).1 7 rfl
  · rw [(duration_video_only_sum Option.none
      [⟨"video", some (Value.int 3000)⟩]).2 rfl]
    show [(3000 : ℚ) / 1000].sum = 3
    norm_num

/-! ## Substitutions (C5) -/

/-- Python `str()` of a scalar value.  The exact rendering of floats is
not load-bearing for any claim and is abstracted by the rational's
`toString`. -/
def pyStr : Value → String
  | .none => "None"
  | .bool b => if b then "True" else "False"
  | .int n => toString n
  | .float q => toString q
  | .str s => s

/-- Python `str.strip()`: drop whitespace from both ends. -/
def pyStrip (s : String) : String :=
  String.mk
    (((s.data.dropWhile Char.isWhitespace).reverse.dropWhile
        Char.isWhitespace).reverse)

/-- One iteration of the `args.substitutions` loop in `get_rows`
(`9716.py` lines 588-594): skip columns absent from the row, otherwise
look the column's stripped string form up in the per-column table; a
missing key (`KeyError`, suppressed) leaves the column unchanged. -/
def stepSub (r : Row) (kv : String × List (String × Value)) : Row :=
  if dmem r kv.1 then
    match kv.2.find? (fun p => p.1 == pyStrip (pyStr (dget r kv.1))) with
    | some p => dinsert r kv.1 p.2
    | Option.none => r
  else r

/-- The whole substitution pass, run on every path of `get_rows` — the
loop sits after the cache branch, outside every `if not cache_hit`
guard, so it applies to cache hits too. -/
def applySubstitutions (subs : List (String × List (String × Value)))
    (row : Row) : Row :=
  subs.foldl stepSub row

/-- Claim C5 (counterexample): with substitution table
`{Country: {"x": "y"}}` and current value `" x "`, the unstripped string
form `" x "` has no mapping in the table, yet the column is rewritten to
`"y"` — the lookup key is the stripped string form, so "no mapping for the
string form implies unchanged" fails. -/
theorem substitutions_counterexample :
    dget (applySubstitutions [("Country", [("x", Value.str "y")])]
        [("Country", Value.str " x ")]) "Country" = Value.str "y" ∧
    ([("x", Value.str "y")] : List (String × Value)).find?
        (fun p => p.1 == pyStr (Value.str " x ")) = Option.none ∧
    Value.str "y" ≠ Value.str " x " := by
  refine ⟨?_, by decide, by decide⟩
  decide

/-- Inserting under one key does not change membership of a different
key. -/
theorem dmem_dinsert_ne (r : Row) (k0 k : String) (v : Value)
    (h : ¬k = k0) : dmem (dinsert r k0 v) k = dmem r k := by
  have hbeq : (k0 == k) = false :=
    beq_eq_false_iff_ne.mpr (fun e => h e.symm)
  induction r with
  | nil => simp [dinsert, dmem, hbeq]
  | cons p rest ih =>
    by_cases hp : p.1 = k0
    · simp [dinsert, dmem, hp, hbeq]
    · simp only [dinsert]
      rw [if_neg (fun e => hp (beq_iff_eq.mp e))]
      simp only [dmem, List.any_cons] at ih ⊢
      rw [ih]

/-- A substitution step for one column leaves every other column's value
unchanged. -/
theorem stepSub_dget_ne (r : Row) (kv : String × List (String × Value))
    (k : String) (h : ¬k = kv.1) : dget (stepSub r kv) k = dget r k := by
  unfold stepSub
  by_cases hm : dmem r kv.1 = true
  · rw [if_pos hm]
    cases hf : kv.2.find? (fun p => p.1 == pyStrip (pyStr (dget r kv.1))) with
    | none => rfl
    | some p => rw [dget_dinsert, if_neg h]
  · rw [if_neg hm]

/-- A substitution step for one column leaves every other column's
membership unchanged. -/
theorem stepSub_dmem_ne (r : Row) (kv : String × List (String × Value))
    (k : String) (h : ¬k = kv.1) : dmem (stepSub r kv) k = dmem r k := by
  unfold stepSub
  by_cases hm : dmem r kv.1 = true
  · rw [if_pos hm]
    cases hf : kv.2.find? (fun p => p.1 == pyStrip (pyStr (dget r kv.1))) with
    | none => rfl
    | some p => exact dmem_dinsert_ne r kv.1 k p.2 h
  · rw [if_neg hm]

/-- Columns named by no substitution entry are untouched by the whole
pass. -/
theorem fold_stepSub_dget_notmem
    (subs : List (String × List (String × Value))) (r : Row) (k : String)
    (h : k ∉ subs.map Prod.fst) :
    dget (subs.foldl stepSub r) k = dget r k := by
  induction subs generalizing r with
  | nil => rfl
  | cons kv rest ih =>
    have h1 : ¬k = kv.1 := fun e => h (by rw [e]; simp)
    have h2 : k ∉ rest.map Prod.fst := fun m => h (by simp [m])
    rw [List.foldl_cons, ih _ h2, stepSub_dget_ne r kv k h1]

/-- Claim C5 (amended): for every row column that is a key of the
configured substitution table, the column's value is replaced by the
replacement keyed by the WHITESPACE-STRIPPED string form of the current
value; when the stripped string form has no mapping, or the column is
absent from the row, the column is unchanged, and columns named by no
table entry are unchanged.  (The pass runs after the cache branch,
outside every `if not cache_hit` guard, so it applies on a cache hit
too.) -/
theorem substitutions_stripped_form
    (subs : List (String × List (String × Value))) (row : Row)
    (hnodup : (subs.map Prod.fst).Nodup) :
    (∀ k table, (k, table) ∈ subs →
      dget (applySubstitutions subs row) k =
        (if dmem row k then
          match table.find? (fun p => p.1 == pyStrip (pyStr (dget row k))) with
          | some p => p.2
          | Option.none => dget row k
        else dget row k)) ∧
    (∀ k, k ∉ subs.map Prod.fst →
      dget (applySubstitutions subs row) k = dget row k) := by
  induction subs generalizing row with
  | nil =>
    exact ⟨fun k table h => absurd h (List.not_mem_nil _), fun k _ => rfl⟩
  | cons kv rest ih =>
    have hnodup2 : (kv.1 :: rest.map Prod.fst).Nodup := by
      simpa only [List.map_cons] using hnodup
    have hnd := List.nodup_cons.mp hnodup2
    constructor
    · intro k table hmem
      rcases List.mem_cons.mp hmem with heq | hrest
      · cases heq.symm
        show dget (rest.foldl stepSub (stepSub row (k, table))) k = _
        rw [fold_stepSub_dget_notmem rest _ k hnd.1]
        show dget (stepSub row (k, table)) k = _
        unfold stepSub
        by_cases hm : dmem row k = true
        · rw [if_pos hm, if_pos hm]
          cases hf : table.find?
              (fun p => p.1 == pyStrip (pyStr (dget row k))) with
          | none => rfl
          | some p => rw [dget_dinsert, if_pos rfl]
        · rw [if_neg hm, if_neg hm]
      · have hk_ne : ¬k = kv.1 := by
          intro e
          have hmm : k ∈ rest.map Prod.fst :=
            List.mem_map_of_mem Prod.fst hrest
          exact hnd.1 (e ▸ hmm)
        show dget (rest.foldl stepSub (stepSub row kv)) k = _
        have hrec := (ih (stepSub row kv) hnd.2).1 k table hrest
        rw [applySubstitutions] at hrec
        rw [hrec, stepSub_dget_ne row kv k hk_ne, stepSub_dmem_ne row kv k hk_ne]
    · intro k hk
      have h1 : ¬k = kv.1 := fun e => hk (by rw [e]; simp)
      have h2 : k ∉ rest.map Prod.fst := fun m => hk (by simp [m])
      show dget (rest.foldl stepSub (stepSub row kv)) k = _
      have hrec := (ih (stepSub row kv) hnd.2).2 k h2
      rw [applySubstitutions] at hrec
      rw [hrec, stepSub_dget_ne row kv k h1]

/-- Witness for `substitutions_stripped_form`: value `"x"` in the Country
column is rewritten to `"y"` by table `{Country: {"x": "y"}}`. -/
theorem substitutions_stripped_form_witness :
    dget (applySubstitutions [("Country", [("x", Value.str "y")])]
        [("Country", Value.str "x")]) "Country" = Value.str "y" := by
  rw [(substitutions_stripped_form [("Country", [("x", Value.str "y")])]
      [("Country", Value.str "x")] (by decide)).1 "Country"
      [("x", Value.str "y")] (by decide)]
  decide

/-! ## Median statistics (C6) -/

/-- `isinstance(x, (float, int))`: Python numbers; `bool` is a subclass
of `int`. -/
def isNumericSample : Value → Bool
  | .int _ => true
  | .float _ => true
  | .bool _ => true
  | _ => false

/-- Insert into a sorted list of rationals. -/
def insSorted (x : ℚ) : List ℚ → List ℚ
  | [] => [x]
  | y :: ys => if x ≤ y then x :: y :: ys else y :: insSorted x ys

/-- Insertion sort, standing in for the sort inside `statistics.median`. -/
def sortQ (l : List ℚ) : List ℚ := l.foldr insSorted []

/-- `statistics.median`: sort the data; an odd count takes the middle
element, an even count the mean of the two middle elements;
`StatisticsError` (`Option.none`) on empty data. -/
def pyMedian (l : List ℚ) : Option ℚ :=
  let s := sortQ l
  if s.length == 0 then Option.none
  else if s.length % 2 == 1 then some (s.getD (s.length / 2) 0)
  else some ((s.getD (s.length / 2 - 1) 0 + s.getD (s.length / 2) 0) / 2)

/-- The numeric samples the `check` list keeps, in order. -/
def numericSamples (vals : List Value) : List ℚ :=
  vals.filterMap (fun v => if isNumericSample v then v.toNum else Option.none)

/-- The values the loop flags on stderr: non-numeric and not one of the
silently skipped string sentinels `"NaN"` / `"Infinity"` (Python `in`
compares with `==`). -/
def unrecognisedSamples (vals : List Value) : List Value :=
  vals.filter (fun v =>
    !isNumericSample v && !pyEq v (Value.str "NaN") &&
      !pyEq v (Value.str "Infinity"))

/-- The median-stats block of `get_rows` (`9716.py` lines 445-460) for one
schema-derived column: the collected per-item values
(`item_stats.get(head, [0])`, so a column with no collected list defaults
to `[0]`), filtered to numeric samples with sentinels skipped and anything
else warned about, then `median(check)` with `StatisticsError` mapped to
0.  Returns the column value and the list of flagged values.
`medianOrZero` is the `median(check)` step with `StatisticsError` mapped
to 0. -/
def medianOrZero (l : List ℚ) : ℚ :=
  match pyMedian l with
  | some m => m
  | Option.none => 0

/-- See `medianColumn`. -/
def medianColumn (collected : Option (List Value)) : ℚ × List Value :=
  let vals := collected.getD [Value.int 0]
  (medianOrZero (numericSamples vals), unrecognisedSamples vals)

/-- Claim C6: per schema-derived column, the collected values are
filtered to numeric samples, `"NaN"`/`"Infinity"` are skipped silently,
any other non-numeric value is flagged to the diagnostic stream, the
column value is the median of the numeric samples and defaults to 0 when
none exist; in particular `[10, "NaN", 20, "bogus"]` yields 15 with
`"bogus"` flagged. -/
theorem median_stats_column (vals : List Value) :
    ((medianColumn (some vals)).2 = unrecognisedSamples vals) ∧
    (numericSamples vals = [] → (medianColumn (some vals)).1 = 0) ∧
    (∀ m, pyMedian (numericSamples vals) = some m →
      (medianColumn (some vals)).1 = m) ∧
    medianColumn Option.none = (0, []) ∧
    medianColumn (some [Value.int 10, Value.str "NaN", Value.int 20,
        Value.str "bogus"]) = (15, [Value.str "bogus"]) := by
  refine ⟨rfl, ?_, ?_, ?_, ?_⟩
  · intro h
    show medianOrZero (numericSamples vals) = 0
    rw [medianOrZero, h]
    rfl
  · intro m hm
    show medianOrZero (numericSamples vals) = m
    rw [medianOrZero, hm]
  · show (medianOrZero (numericSamples [Value.int 0]),
      unrecognisedSamples [Value.int 0]) = (0, [])
    have h1 : numericSamples [Value.int 0] = [0] := by
      simp [numericSamples, isNumericSample, Value.toNum]
    have h2 : pyMedian [0] = some 0 := by
      simp [pyMedian, sortQ, insSorted]
    rw [Prod.mk.injEq, medianOrZero, h1, h2]
    constructor
    · rfl
    · simp [unrecognisedSamples, isNumericSample, pyEq, Value.toNum]
  · have h1 : numericSamples [Value.int 10, Value.str "NaN", Value.int 20,
        Value.str "bogus"] = [10, 20] := by
      simp [numericSamples, isNumericSample, Value.toNum]
    have h2 : pyMedian [10, 20] = some 15 := by
      have hs : sortQ [10, 20] = [10, 20] := by
        simp [sortQ, insSorted]
        norm_num
      simp [pyMedian, hs]
      norm_num
    show (medianOrZero (numericSamples [Value.int 10, Value.str "NaN",
        Value.int 20, Value.str "bogus"]),
      unrecognisedSamples [Value.int 10, Value.str "NaN", Value.int 20,
        Value.str "bogus"]) = (15, [Value.str "bogus"])
    rw [Prod.mk.injEq, medianOrZero, h1, h2]
    constructor
    · rfl
    · simp [unrecognisedSamples, isNumericSample, pyEq, Value.toNum]

/-- Witness for `median_stats_column`: the spec's example input produces
median 15. -/
theorem median_stats_column_witness :
    (medianColumn (some [Value.int 10, Value.str "NaN", Value.int 20,
        Value.str "bogus"])).1 = 15 :=
  congrArg Prod.fst (median_stats_column [Value.int 10, Value.str "NaN",
    Value.int 20, Value.str "bogus"]).2.2.2.2

/-! ## Script categories (C7) -/

/-- A script-category rule after the loader's expansion: either a string
the loader failed to expand (only seen if mutation mid-iteration left
one), a one-element integer tuple `(int(k),)`, or `range(lo, hi)` with
exclusive upper bound. -/
inductive ScriptRule where
  | strRule (s : String)
  | single (n : ℤ)
  | rng (lo hi : ℤ)
deriving DecidableEq, Repr

/-- `str.isdecimal()` for ASCII digit strings. -/
def isDecimalStr (s : String) : Bool :=
  s.length != 0 && s.data.all Char.isDigit

/-- Value of an all-digit string. -/
def digitsToNat (s : String) : ℕ :=
  s.data.foldl (fun n c => n * 10 + (c.toNat - 48)) 0

/-- `int(s)` on the strings this loader can feed it: strip whitespace,
then require digits (`ValueError`, i.e. `Option.none`, otherwise). -/
def pyIntOfString (s : String) : Option ℤ :=
  let t := pyStrip s
  if isDecimalStr t then some ((digitsToNat t : ℤ)) else Option.none

/-- `re.match(r"\d+-\d+", k)`: digits, a dash, and at least one more
digit at the start of the string (anything may follow). -/
def matchesRangeRe (k : String) : Bool :=
  let cs := k.data
  let d1 := cs.takeWhile Char.isDigit
  !d1.isEmpty &&
    (match cs.drop d1.length with
     | '-' :: c :: _ => c.isDigit
     | _ => false)

/-- `k.split("-")` on the character list. -/
def splitDashAux : List Char → List Char → List (List Char)
  | [], acc => [acc.reverse]
  | c :: rest, acc =>
    if c = '-' then acc.reverse :: splitDashAux rest []
    else splitDashAux rest (c :: acc)

/-- `k.split("-")`. -/
def splitDash (s : String) : List String :=
  (splitDashAux s.data []).map String.mk

/-- The loader's expansion of one script-category rule key (`main`,
`9716.py` lines 780-797): a decimal key becomes the one-element tuple
`(int(k),)`, a key matching `\d+-\d+` becomes `range(minimum, maximum+1)`
from `k.split("-")`, and any other string is warned about and dropped
(`.error "unrecognised"`).  A key passing the regex whose split does not
unpack into two `int()`-able parts raises an uncaught `ValueError`. -/
def expandScriptRule (k : String) : Except String ScriptRule :=
  if isDecimalStr k then .ok (.single ((digitsToNat k : ℤ)))
  else if matchesRangeRe k then
    match splitDash k with
    | [a, b] =>
      match pyIntOfString a, pyIntOfString b with
      | some x, some y => .ok (.rng x (y + 1))
      | _, _ => .error "ValueError"
    | _ => .error "ValueError"
  else .error "unrecognised"

/-- `script_num in script_num_rule` in `get_rows` (lines 572-584): a
string rule is printed and skipped, a tuple matches its one integer, a
range matches `lo ≤ n < hi`. -/
def ruleContains : ScriptRule → ℤ → Bool
  | .strRule _, _ => false
  | .single m, n => n == m
  | .rng lo hi, n => decide (lo ≤ n) && decide (n < hi)

/-- The per-rule-set matching loop: the title column receives the value
of the first matching rule (`break`); no match leaves it unset. -/
def firstRuleMatch (rules : List (ScriptRule × Value)) (n : ℤ) :
    Option Value :=
  match rules with
  | [] => Option.none
  | rv :: rest =>
    if ruleContains rv.1 n then some rv.2 else firstRuleMatch rest n

/-- Claim C7: rule `"1-5"` expands to `range(1, 6)` and matches exactly
the script numbers 1..5 inclusive; rule `"3"` expands to `(3,)` and
matches only 3; and for each rule set the title takes the value of the
first matching rule. -/
theorem script_rule_matching :
    (expandScriptRule "1-5" = .ok (.rng 1 6) ∧
      ∀ n : ℤ, (ruleContains (.rng 1 6) n = true ↔ 1 ≤ n ∧ n ≤ 5)) ∧
    (expandScriptRule "3" = .ok (.single 3) ∧
      ∀ n : ℤ, (ruleContains (.single 3) n = true ↔ n = 3)) ∧
    (∀ (pre : List (ScriptRule × Value)) (rv : ScriptRule × Value)
        (rest : List (ScriptRule × Value)) (n : ℤ),
      (∀ p ∈ pre, ruleContains p.1 n = false) →
      ruleContains rv.1 n = true →
      firstRuleMatch (pre ++ rv :: rest) n = some rv.2) := by
  refine ⟨⟨rfl, ?_⟩, ⟨rfl, ?_⟩, ?_⟩
  · intro n
    simp only [ruleContains, Bool.and_eq_true, decide_eq_true_eq]
    omega
  · intro n
    simp only [ruleContains, beq_iff_eq]
  · intro pre rv rest n hpre hrv
    induction pre with
    | nil => simp [firstRuleMatch, hrv]
    | cons p ps ih =>
      have hp := hpre p (List.mem_cons_self p ps)
      simp only [List.cons_append, firstRuleMatch, hp]
      exact ih (fun q hq => hpre q (List.mem_cons_of_mem p hq))

/-- Witness for `script_rule_matching`: with rules
`[range(1,6) ↦ "low", (7,) ↦ "seven"]` a script number 7 takes the second
rule's value. -/
theorem script_rule_matching_witness :
    firstRuleMatch [(ScriptRule.rng 1 6, Value.str "low"),
      (ScriptRule.single 7, Value.str "seven")] 7 =
      some (Value.str "seven") :=
  script_rule_matching.2.2 [(ScriptRule.rng 1 6, Value.str "low")]
    (ScriptRule.single 7, Value.str "seven") [] 7 (by decide) (by decide)

/-! ## Header mutation from the photo loop (C8) -/

/-- The base `SESSION_HEADERS` list (`9716.py` lines 80-100). -/
def SESSION_HEADERS : List String :=
  ["Directory Name", "Pin", "Total items", "Recorded items", "Skipped items",
   "Rejected items", "Duration", "Date", "Completed", "Abandoned", "Email",
   "Device IP", "Device ID", "Device Model", "Device OS", "Country",
   "Country Code", "Region", "Region Name"]

/-- The base `STAT_HEADERS` list (line 112).  Inside `get_rows` and
`process_files` this list is only ever read, never extended. -/
def STAT_HEADERS : List String := ["Session", "File", "Reason"]

/-- The corpus-code → prompt-name table in the photo loop
(lines 640-647). -/
def promptNameFor (corpusCode : String) : String :=
  if corpusCode == "1image1" then "ev_station"
  else if corpusCode == "1image2" then "user_interface"
  else if corpusCode == "1image3" then "plug"
  else "missing_prompt"

/-- Effect of one image item on the global `SESSION_HEADERS` list
(lines 646-649): an unmapped corpus code falls back to the
"missing_prompt" name and, when the literal string "missing_prompt" is
not in the list — and it never is, because only the four derived column
names are ever appended — extends the list by the four missing_prompt
photo columns. -/
def headersAfterImage (headers : List String) (corpusCode : String) :
    List String :=
  if promptNameFor corpusCode == "missing_prompt" then
    if "missing_prompt" ∈ headers then headers
    else headers ++ ["missing_prompt_photo_exif", "missing_prompt_photo_url",
      "missing_prompt_photo_lat", "missing_prompt_photo_lng"]
  else headers

/-- `SESSION_HEADERS` after one worker task's photo loop has processed
the session's image items (in creation order), given their corpus
codes. -/
def headersAfterPhotoLoop (headers : List String)
    (imageCorpusCodes : List String) : List String :=
  imageCorpusCodes.foldl headersAfterImage headers

/-- Claim C8 (counterexample): a worker task processing an image item
whose corpus code is not one of 1image1/1image2/1image3 appends four
columns to `SESSION_HEADERS` mid-run, so the header list is not fixed
after the pre-pool schema assembly. -/
theorem fixed_headers_counterexample :
    headersAfterPhotoLoop SESSION_HEADERS ["2imageX"] ≠ SESSION_HEADERS := by
  decide

/-- Claim C8 (amended): after the pre-pool schema assembly,
`SESSION_HEADERS` is only ever appended to, never shortened or
reordered — the list after any photo loop is the original list plus a
tail — and it is left completely unchanged by sessions whose image items
all carry mapped corpus codes; but each image item with an unmapped
corpus code appends the four missing_prompt photo columns (once per such
item, since the guard tests for the literal "missing_prompt", which is
never itself added). -/
theorem fixed_headers_append_only (headers : List String)
    (codes : List String) :
    (codes.all (fun c => !(promptNameFor c == "missing_prompt")) = true →
      headersAfterPhotoLoop headers codes = headers) ∧
    ("missing_prompt" ∉ headers →
      (headersAfterPhotoLoop headers codes).length =
        headers.length +
          4 * codes.countP (fun c => promptNameFor c == "missing_prompt")) ∧
    (∃ tail, headersAfterPhotoLoop headers codes = headers ++ tail) := by
  refine ⟨?_, ?_, ?_⟩
  · intro hall
    induction codes generalizing headers with
    | nil => rfl
    | cons c cs ih =>
      rw [List.all_cons, Bool.and_eq_true] at hall
      have hc : ¬(promptNameFor c == "missing_prompt") = true := by
        simpa using hall.1
      show headersAfterPhotoLoop (headersAfterImage headers c) cs = headers
      rw [headersAfterImage, if_neg hc]
      exact ih headers hall.2
  · intro hmem
    induction codes generalizing headers with
    | nil => simp [headersAfterPhotoLoop]
    | cons c cs ih =>
      show (headersAfterPhotoLoop (headersAfterImage headers c) cs).length = _
      rw [List.countP_cons]
      by_cases hc : (promptNameFor c == "missing_prompt") = true
      · rw [headersAfterImage, if_pos hc, if_neg hmem]
        have hmem2 : "missing_prompt" ∉
            headers ++ ["missing_prompt_photo_exif",
              "missing_prompt_photo_url", "missing_prompt_photo_lat",
              "missing_prompt_photo_lng"] := by
          intro habs
          rcases List.mem_append.mp habs with h | h
          · exact hmem h
          · simp at h
        rw [ih _ hmem2]
        simp [hc, List.length_append]
        ring
      · rw [headersAfterImage, if_neg hc, ih headers hmem]
        have hc' : (promptNameFor c == "missing_prompt") = false :=
          Bool.eq_false_iff.mpr hc
        simp [hc']
  · induction codes generalizing headers with
    | nil => exact ⟨[], by simp [headersAfterPhotoLoop]⟩
    | cons c cs ih =>
      show ∃ tail, headersAfterPhotoLoop (headersAfterImage headers c) cs =
        headers ++ tail
      rw [headersAfterImage]
      by_cases hc : (promptNameFor c == "missing_prompt") = true
      · rw [if_pos hc]
        by_cases hm : "missing_prompt" ∈ headers
        · rw [if_pos hm]; exact ih headers
        · rw [if_neg hm]
          rcases ih (headers ++ ["missing_prompt_photo_exif",
            "missing_prompt_photo_url", "missing_prompt_photo_lat",
            "missing_prompt_photo_lng"]) with ⟨t, ht⟩
          exact ⟨_, by rw [ht, List.append_assoc]⟩
      · rw [if_neg hc]; exact ih headers

/-- Witness for `fixed_headers_append_only`: mapped corpus codes leave
the headers alone; one unmapped code grows the list by four columns. -/
theorem fixed_headers_append_only_witness :
    headersAfterPhotoLoop SESSION_HEADERS ["1image1", "1image3"] =
      SESSION_HEADERS ∧
    (headersAfterPhotoLoop SESSION_HEADERS ["2imageX"]).length =
      SESSION_HEADERS.length + 4 *
        (["2imageX"].countP (fun c => promptNameFor c == "missing_prompt")) :=
  ⟨(fixed_headers_append_only SESSION_HEADERS ["1image1", "1image3"]).1
      (by decide),
   (fixed_headers_append_only SESSION_HEADERS ["2imageX"]).2.1 (by decide)⟩

/-! ## Photo GPS fallback (C9) -/

/-- A degrees/minutes/seconds GPS tuple as stored in EXIF: three
numerator/denominator pairs, e.g. `((33,1),(47,1),(37131958,1000000))`. -/
structure DMS where
  deg : ℤ × ℤ
  mnt : ℤ × ℤ
  sec : ℤ × ℤ
deriving DecidableEq, Repr

/-- `parse_lng_lat` (`9716.py` lines 324-331):
`degrees + minutes/60 + seconds/3600`, each component a ratio.  Exact
rational arithmetic stands in for Python float division. -/
def parse_lng_lat (x : DMS) : ℚ :=
  (x.deg.1 : ℚ) / (x.deg.2 : ℚ) + ((x.mnt.1 : ℚ) / (x.mnt.2 : ℚ)) / 60 +
    ((x.sec.1 : ℚ) / (x.sec.2 : ℚ)) / 3600

/-- The EXIF step of the lat/lng resolution (lines 663-670).  Both
assignments sit inside one `suppress(TypeError)` block, so a missing
latitude tuple (`None` unpack raises) aborts before `lng` is assigned,
and a missing longitude tuple leaves only `lat` assigned. -/
def exifLatLng (exifLat exifLng : Option DMS) : Option ℚ × Option ℚ :=
  match exifLat with
  | Option.none => (Option.none, Option.none)
  | some a =>
    match exifLng with
    | Option.none => (some (parse_lng_lat a), Option.none)
    | some b => (some (parse_lng_lat a), some (parse_lng_lat b))

/-- Python truthiness of an optional coordinate, as used by
`all([lat, lng])`: `None` and `0.0` are both falsy. -/
def truthyQ : Option ℚ → Bool
  | Option.none => false
  | some q => q != 0

/-- The device location nested under
`file.attributes["deviceinfo"]["location"]`: each coordinate key present
or absent. -/
structure DeviceLocation where
  longitude : Option ℚ
  latitude : Option ℚ
deriving DecidableEq, Repr

/-- Lat/lng resolution for one image item (lines 662-675): EXIF values
first; then, when `deviceinfo` exists and not both EXIF values are
truthy, overwrite from the device location inside `suppress(KeyError)` —
longitude is assigned first, so a present longitude with a missing
latitude key updates only the longitude.  The outer `Option` is the
presence of the `deviceinfo` attribute, the inner one the presence of its
`location` key.  `deviceStep` is the device-overwrite part. -/
def deviceStep (deviceInfo : Option (Option DeviceLocation))
    (lat lng : Option ℚ) : Option ℚ × Option ℚ :=
  if deviceInfo.isSome && !(truthyQ lat && truthyQ lng) then
    match deviceInfo with
    | some (some d) =>
      match d.longitude with
      | Option.none => (lat, lng)
      | some dlng =>
        match d.latitude with
        | Option.none => (lat, some dlng)
        | some dlat => (some dlat, some dlng)
    | _ => (lat, lng)
  else (lat, lng)

/-- See `deviceStep`: EXIF step, then the conditional device
overwrite. -/
def resolveLatLng (exifLat exifLng : Option DMS)
    (deviceInfo : Option (Option DeviceLocation)) : Option ℚ × Option ℚ :=
  deviceStep deviceInfo (exifLatLng exifLat exifLng).1
    (exifLatLng exifLat exifLng).2

/-- Claim C9 (counterexample): EXIF carries both GPS tuples — latitude
`((0,1),(0,1),(0,1))` (the equator) and longitude `((10,1),(0,1),(0,1))`
— so the claim says the EXIF-converted pair `(0, 10)` is used; but the
code's `not all([lat, lng])` guard treats the 0.0 latitude as missing and
overwrites both coordinates with the device-reported `(5, 6)`. -/
theorem photo_gps_counterexample :
    resolveLatLng (some ⟨(0, 1), (0, 1), (0, 1)⟩)
        (some ⟨(10, 1), (0, 1), (0, 1)⟩)
        (some (some ⟨some 6, some 5⟩)) = (some 5, some 6) ∧
    exifLatLng (some ⟨(0, 1), (0, 1), (0, 1)⟩)
        (some ⟨(10, 1), (0, 1), (0, 1)⟩) = (some 0, some 10) ∧
    ((some 5 : Option ℚ), (some 6 : Option ℚ)) ≠ (some 0, some 10) := by
  have h0 : parse_lng_lat ⟨(0, 1), (0, 1), (0, 1)⟩ = 0 := by
    norm_num [parse_lng_lat]
  have h10 : parse_lng_lat ⟨(10, 1), (0, 1), (0, 1)⟩ = 10 := by
    norm_num [parse_lng_lat]
  have hexif : exifLatLng (some ⟨(0, 1), (0, 1), (0, 1)⟩)
      (some ⟨(10, 1), (0, 1), (0, 1)⟩) = (some 0, some 10) := by
    simp [exifLatLng, h0, h10]
  refine ⟨?_, hexif, by norm_num⟩
  show deviceStep _ (exifLatLng _ _).1 (exifLatLng _ _).2 = _
  rw [hexif]
  norm_num [deviceStep, truthyQ]

/-- Claim C9 (amended): when the decoded EXIF metadata contains GPS
latitude and longitude tuples AND both converted values are nonzero, the
photo lat/lng columns are set from those tuples; when the EXIF-derived
pair is not both-present-and-nonzero and the item's device-info carries
both location coordinates, the device-reported coordinates are used
instead (overwriting any partial EXIF value); and with no device-info the
EXIF-derived values are kept as they are. -/
theorem photo_gps_exif_else_device (exifLat exifLng : Option DMS)
    (deviceInfo : Option (Option DeviceLocation)) :
    (∀ a b, exifLat = some a → exifLng = some b →
      parse_lng_lat a ≠ 0 → parse_lng_lat b ≠ 0 →
      resolveLatLng exifLat exifLng deviceInfo =
        (some (parse_lng_lat a), some (parse_lng_lat b))) ∧
    (∀ dlng dlat,
      deviceInfo = some (some ⟨some dlng, some dlat⟩) →
      (truthyQ (exifLatLng exifLat exifLng).1 &&
        truthyQ (exifLatLng exifLat exifLng).2) = false →
      resolveLatLng exifLat exifLng deviceInfo = (some dlat, some dlng)) ∧
    (deviceInfo = Option.none →
      resolveLatLng exifLat exifLng deviceInfo =
        exifLatLng exifLat exifLng) := by
  refine ⟨?_, ?_, ?_⟩
  · intro a b ha hb hqa hqb
    subst ha; subst hb
    show deviceStep deviceInfo (some (parse_lng_lat a))
      (some (parse_lng_lat b)) = _
    have hcond : (deviceInfo.isSome &&
        !(truthyQ (some (parse_lng_lat a)) &&
          truthyQ (some (parse_lng_lat b)))) = false := by
      simp [truthyQ, hqa, hqb]
    unfold deviceStep
    rw [hcond]
    simp
  · intro dlng dlat hd hfalse
    subst hd
    show deviceStep _ (exifLatLng exifLat exifLng).1
      (exifLatLng exifLat exifLng).2 = _
    unfold deviceStep
    rw [hfalse]
    rfl
  · intro hd
    subst hd
    rfl

/-- Witness for `photo_gps_exif_else_device`: a nonzero EXIF pair wins
over present device coordinates; a missing EXIF pair falls back to the
device coordinates; no device info keeps the EXIF result. -/
theorem photo_gps_exif_else_device_witness :
    resolveLatLng (some ⟨(33, 1), (0, 1), (0, 1)⟩)
        (some ⟨(10, 1), (0, 1), (0, 1)⟩)
        (some (some ⟨some 6, some 5⟩)) = (some 33, some 10) ∧
    resolveLatLng Option.none Option.none
        (some (some ⟨some 6, some 5⟩)) = (some 5, some 6) ∧
    resolveLatLng Option.none Option.none Option.none =
      (Option.none, Option.none) := by
  have h33 : parse_lng_lat ⟨(33, 1), (0, 1), (0, 1)⟩ = 33 := by
    norm_num [parse_lng_lat]
  have h10 : parse_lng_lat ⟨(10, 1), (0, 1), (0, 1)⟩ = 10 := by
    norm_num [parse_lng_lat]
  refine ⟨?_, ?_, ?_⟩
  · rw [(photo_gps_exif_else_device (some ⟨(33, 1), (0, 1), (0, 1)⟩)
        (some ⟨(10, 1), (0, 1), (0, 1)⟩) (some (some ⟨some 6, some 5⟩))).1
      ⟨(33, 1), (0, 1), (0, 1)⟩ ⟨(10, 1), (0, 1), (0, 1)⟩ rfl rfl
      (by rw [h33]; norm_num) (by rw [h10]; norm_num), h33, h10]
  · exact (photo_gps_exif_else_device Option.none Option.none
      (some (some ⟨some 6, some 5⟩))).2.1 6 5 rfl (by rfl)
  · exact (photo_gps_exif_else_device Option.none Option.none
      Option.none).2.2 rfl

/-! ## Coordinator output sanitization (C10) -/

/-- The per-cell sanitization in `main` (`9716.py` lines 893-901): an
exact-type check `type(v) is str`, then a loop keeping only characters
with code point at least 32, rebuilding the string by successive
appends; non-string values pass through untouched. -/
def sanitizeCell (v : Value) : Value :=
  match v with
  | .str s =>
    .str (s.data.foldl
      (fun acc c => if 32 ≤ c.toNat then acc.push c else acc) "")
  | _ => v

/-- One "Sessions" sheet row as the coordinator appends it: the sanitized
`session_row.get(header)` per session header. -/
def sessionsSheetRow (headers : List String) (row : Row) : List Value :=
  headers.map (fun h => sanitizeCell (dget row h))

/-- One "Stats" sheet row as the coordinator appends it (lines 904-905):
the raw `stat_row.get(header)` values, with no sanitization pass. -/
def statsSheetRow (headers : List String) (row : Row) : List Value :=
  headers.map (fun h => dget row h)

/-- Appending filtered characters one by one equals a list filter. -/
theorem foldl_push_filter (cs : List Char) (acc : String) :
    cs.foldl (fun a c => if 32 ≤ c.toNat then a.push c else a) acc =
      String.mk (acc.data ++ cs.filter (fun c => 32 ≤ c.toNat)) := by
  induction cs generalizing acc with
  | nil =>
    cases acc
    simp
  | cons c rest ih =>
    by_cases h : 32 ≤ c.toNat
    · rw [List.foldl_cons, if_pos h, ih]
      cases acc
      simp [String.push, List.filter_cons, h]
    · rw [List.foldl_cons, if_neg h, ih]
      simp [List.filter_cons, h]

/-- Claim C10: the coordinator's control-character stripping applies only
to SessionRow values — every string value in a Sessions sheet row has its
code-points-below-32 characters removed (and so contains none), while
Stats sheet rows carry the raw values verbatim; concretely, the string
`"a\x01b"` is written as `"ab"` to the Sessions sheet but unchanged to
the Stats sheet. -/
theorem sessions_sanitized_stats_verbatim (headers : List String)
    (row : Row) :
    (∀ v ∈ sessionsSheetRow headers row, ∀ s, v = Value.str s →
      ∀ c ∈ s.data, 32 ≤ c.toNat) ∧
    (∀ s, sanitizeCell (Value.str s) =
      Value.str (String.mk (s.data.filter (fun c => 32 ≤ c.toNat)))) ∧
    statsSheetRow headers row = headers.map (fun h => dget row h) ∧
    sessionsSheetRow ["Reason"] [("Reason", Value.str "a\x01b")] =
      [Value.str "ab"] ∧
    statsSheetRow ["Reason"] [("Reason", Value.str "a\x01b")] =
      [Value.str "a\x01b"] := by
  have hsan : ∀ s, sanitizeCell (Value.str s) =
      Value.str (String.mk (s.data.filter (fun c => 32 ≤ c.toNat))) := by
    intro s
    show Value.str _ = _
    rw [foldl_push_filter]
    rfl
  refine ⟨?_, hsan, rfl, ?_, rfl⟩
  · intro v hv s hvs c hc
    rcases List.mem_map.mp hv with ⟨h, _, hval⟩
    cases hd : dget row h with
    | str t =>
      rw [hd, hsan t] at hval
      rw [← hval] at hvs
      cases hvs
      have hc2 : c ∈ t.data.filter (fun c => decide (32 ≤ c.toNat)) := hc
      exact of_decide_eq_true (List.mem_filter.mp hc2).2
    | none => rw [hd] at hval; rw [← hval] at hvs; cases hvs
    | bool b => rw [hd] at hval; rw [← hval] at hvs; cases hvs
    | int n => rw [hd] at hval; rw [← hval] at hvs; cases hvs
    | float q => rw [hd] at hval; rw [← hval] at hvs; cases hvs
  · rw [show sessionsSheetRow ["Reason"] [("Reason", Value.str "a\x01b")] =
      [sanitizeCell (Value.str "a\x01b")] from rfl, hsan]
    decide

/-- Witness for `sessions_sanitized_stats_verbatim`: in the concrete
Sessions row built from `"a\x01b"` every character of the written string
`"ab"` has code point at least 32. -/
theorem sessions_sanitized_stats_verbatim_witness :
    32 ≤ 'a'.toNat ∧ 32 ≤ 'b'.toNat :=
  ⟨(sessions_sanitized_stats_verbatim ["Reason"]
      [("Reason", Value.str "a\x01b")]).1 (Value.str "ab")
      (by decide) "ab" rfl 'a' (by decide),
   (sessions_sanitized_stats_verbatim ["Reason"]
      [("Reason", Value.str "a\x01b")]).1 (Value.str "ab")
      (by decide) "ab" rfl 'b' (by decide)⟩

end CollectionReport
